import Mathlib

/-!
Verification of the gitease Command Safety & Workflow Execution Engine.

This file gives a shallow embedding of the core of the repository:
the risk classifier (`src/safety.ts` with the pattern tables of
`src/constants.ts`), the reversal resolver, the undo ledger
(`src/ledger.ts`), and the sequential workflow executor
(`handleWorkflow` in `src/cli.ts`), followed by theorems settling the
specification claims about them.

Strings are modelled as Lean `String`; the JavaScript regular
expressions used by the source are embedded as explicit matching
functions over `List Char` (all the patterns in the source are
start-anchored sequences of literal chunks separated by `\s+`,
alternations of literal words, or the simple character classes
`[^\s]+` and `.+`).  External collaborators (command execution,
conflict queries, operator prompts) are modelled as an explicit
environment record, and the persisted ledger file as a list threaded
through the operations.
-/

/-- The set of characters matched by JavaScript `\s` (also the set
trimmed by `String.prototype.trim`): ASCII whitespace, NBSP, the
Unicode space separators, the line separators and the BOM. -/
def jsWhitespace (c : Char) : Bool :=
  [' ', '\t', '\n', '\r', '\x0B', '\x0C', ' ', ' ',
   ' ', ' ', ' ', ' ', ' ', ' ', ' ',
   ' ', ' ', ' ', ' ', ' ', ' ', ' ',
   ' ', '　', '﻿'].contains c

/-- JavaScript line terminators, the characters NOT matched by `.`
in a regular expression without the `s` flag. -/
def isLineTerminator (c : Char) : Bool :=
  c == '\n' || c == '\r' || c == ' ' || c == ' '

/-- Model of JavaScript `String.prototype.trim`: drop `jsWhitespace`
characters from both ends. -/
def jsTrim (s : String) : String :=
  String.mk (((s.data.dropWhile jsWhitespace).reverse.dropWhile jsWhitespace).reverse)

/-- Match a literal character sequence at the head of the input;
return the remaining input on success. -/
def matchLit : List Char → List Char → Option (List Char)
  | [], s => some s
  | _ :: _, [] => none
  | c :: cs, d :: ds => if c = d then matchLit cs ds else none

/-- Match `\s+` (one or more `jsWhitespace` characters, greedily) at
the head of the input; return the remaining input on success. -/
def matchGap : List Char → Option (List Char)
  | [] => none
  | c :: cs => if jsWhitespace c then some (cs.dropWhile jsWhitespace) else none

/-- Test a start-anchored pattern of literal chunks separated by
`\s+` (the shape of every `^git\s+...` pattern in `constants.ts`)
against the input.  As in `RegExp.prototype.test`, trailing input
after the pattern is ignored. -/
def testPat : List (List Char) → List Char → Bool
  | [], _ => true
  | w :: ws, s =>
    match matchLit w s with
    | none => false
    | some rest =>
      match ws with
      | [] => true
      | _ :: _ =>
        match matchGap rest with
        | none => false
        | some rest2 => testPat ws rest2

/-- `testPat` with the chunks given as string literals. -/
def testPattern (chunks : List String) (s : List Char) : Bool :=
  testPat (chunks.map String.data) s

/-- `DANGEROUS_COMMANDS` from `src/constants.ts`: the regexes
`^git\s+reset\s+--hard`, `^git\s+push\s+--force`, `^git\s+rebase\s+-i`,
`^git\s+clean\s+-fd`, `^git\s+rm\s+-r`, each as its chunk list. -/
def DANGEROUS_COMMANDS : List (List String) :=
  [["git", "reset", "--hard"],
   ["git", "push", "--force"],
   ["git", "rebase", "-i"],
   ["git", "clean", "-fd"],
   ["git", "rm", "-r"]]

/-- `REVERSIBLE_OPERATIONS` from `src/constants.ts`, in the insertion
order `Object.entries` iterates it. -/
def REVERSIBLE_OPERATIONS : List (String × String) :=
  [("git reset --soft HEAD~", "git commit"),
   ("git reset HEAD", "git add"),
   ("git revert", "git reset --hard")]

/-- Try a list of literal alternatives in order at the head of the
input (the `(?:a|b|c)` groups of `safety.ts`); return the rest after
the first alternative that matches. -/
def matchAlt : List (List Char) → List Char → Option (List Char)
  | [], _ => none
  | a :: rest, s =>
    match matchLit a s with
    | some r => some r
    | none => matchAlt rest s

/-- Match `(?:checkout|switch)\s+([^\s]+)` at the current position and
return the capture: after the verb and at least one whitespace
character, the maximal nonempty run of non-whitespace characters. -/
def matchBranchAt (s : List Char) : Option (List Char) :=
  match matchAlt ["checkout".data, "switch".data] s with
  | none => none
  | some rest =>
    match matchGap rest with
    | none => none
    | some rest2 =>
      let cap := rest2.takeWhile (fun c => !jsWhitespace c)
      if cap.isEmpty then none else some cap

/-- The capture of `(.+)` at the current position: the maximal
nonempty run of non-line-terminator characters. -/
def matchDotPlus (s : List Char) : Option (List Char) :=
  let cap := s.takeWhile (fun c => !isLineTerminator c)
  if cap.isEmpty then none else some cap

/-- Backtracking match of `\s+(.+)`: greedily consume `k` whitespace
characters (largest first, at least one) such that `(.+)` still
matches what follows, and return that capture. -/
def wsPlusDotPlus (rest : List Char) : Nat → Option (List Char)
  | 0 => none
  | j + 1 =>
    match matchDotPlus (rest.drop (j + 1)) with
    | some cap => some cap
    | none => wsPlusDotPlus rest j

/-- Match `(?:add|rm|checkout)\s+(.+)` at the current position and
return the capture. -/
def matchFileAt (s : List Char) : Option (List Char) :=
  match matchAlt ["add".data, "rm".data, "checkout".data] s with
  | none => none
  | some rest => wsPlusDotPlus rest (rest.takeWhile jsWhitespace).length

/-- Unanchored regex search: try the position matcher at every start
position, leftmost first, as `String.prototype.match` does. -/
def searchCapture (matcher : List Char → Option (List Char)) : List Char → Option (List Char)
  | [] => matcher []
  | c :: rest =>
    match matcher (c :: rest) with
    | some cap => some cap
    | none => searchCapture matcher rest

/-- `RiskLevel` from `src/types.ts`. -/
inductive RiskLevel
  | Safe
  | Warning
  | Dangerous
deriving DecidableEq, Repr

/-- `SafetyAnalysis` from `src/types.ts`. -/
structure SafetyAnalysis where
  riskLevel : RiskLevel
  message : String
  reversible : Bool
  affectedItems : List String
deriving DecidableEq, Repr

/-- `extractAffectedItems` from `src/safety.ts`: best-effort
extraction of a branch hint (`(?:checkout|switch)\s+([^\s]+)`) and a
file hint (`(?:add|rm|checkout)\s+(.+)`) from the command text. -/
def extractAffectedItems (command : String) : List String :=
  let branchItem :=
    match searchCapture matchBranchAt command.data with
    | some cap => ["branch: " ++ String.mk cap]
    | none => []
  let fileItem :=
    match searchCapture matchFileAt command.data with
    | some cap => ["file: " ++ String.mk cap]
    | none => []
  branchItem ++ fileItem

/-- `analyzeCommand` from `src/safety.ts`: trim the command, return
`Dangerous` on the first matching dangerous pattern, otherwise
`Warning` for `^git\s+push` or `^git\s+rebase`, otherwise `Safe`. -/
def analyzeCommand (command : String) : SafetyAnalysis :=
  let trimmed := jsTrim command
  if DANGEROUS_COMMANDS.any (fun p => testPattern p trimmed.data) then
    { riskLevel := RiskLevel.Dangerous
      message := "⚠️  This command can irreversibly delete or modify commits"
      reversible := false
      affectedItems := extractAffectedItems trimmed }
  else if testPattern ["git", "push"] trimmed.data then
    { riskLevel := RiskLevel.Warning
      message := "⚠️  This will push changes to the remote repository"
      reversible := true
      affectedItems := extractAffectedItems trimmed }
  else if testPattern ["git", "rebase"] trimmed.data then
    { riskLevel := RiskLevel.Warning
      message := "⚠️  This will rewrite commit history"
      reversible := true
      affectedItems := extractAffectedItems trimmed }
  else
    { riskLevel := RiskLevel.Safe
      message := "This operation is safe"
      reversible := true
      affectedItems := [] }

/-- `isReversible` from `src/safety.ts`: true when no dangerous
pattern matches the trimmed command. -/
def isReversible (command : String) : Bool :=
  let trimmed := jsTrim command
  !(DANGEROUS_COMMANDS.any (fun p => testPattern p trimmed.data))

/-- JavaScript `String.prototype.includes` on character lists:
`sub` occurs contiguously somewhere in the input. -/
def listContains (sub : List Char) : List Char → Bool
  | [] => sub.isEmpty
  | c :: rest => (matchLit sub (c :: rest)).isSome || listContains sub rest

/-- `command.includes(sub)` on strings. -/
def strIncludes (s sub : String) : Bool :=
  listContains sub.data s.data

/-- The scanning loop of `getReversalCommand`: first table entry whose
trigger is contained in the command wins. -/
def reversalLoop (command : String) : List (String × String) → Option String
  | [] => none
  | (original, reversal) :: rest =>
    if strIncludes command original then some reversal
    else reversalLoop command rest

/-- `getReversalCommand` from `src/safety.ts`. -/
def getReversalCommand (command : String) : Option String :=
  reversalLoop command REVERSIBLE_OPERATIONS

/-- The spec's contract for the reversal resolver, written from the
words of §4.2: the reversal template of the first `(trigger,
reversal)` pair whose trigger is a substring of the command, none if
no entry matches. -/
def resolveReversalSpec (command : String) : Option String :=
  (REVERSIBLE_OPERATIONS.find? (fun p => strIncludes command p.1)).map (fun p => p.2)

/-- Decimal digit emitter mirroring JavaScript integer-to-string
conversion (`${n}` on a nonnegative integer): most significant digit
first, with an explicit fuel argument for structural recursion, as in
the repeated divide-by-ten loop semantics. -/
def toDecimalCore : Nat → Nat → List Char → List Char
  | 0, _, acc => acc
  | fuel + 1, n, acc =>
    let d := Nat.digitChar (n % 10)
    let n' := n / 10
    if n' = 0 then d :: acc else toDecimalCore fuel n' (d :: acc)

/-- Model of JavaScript `${n}` for a nonnegative integer `n` (used by
the ledger for `${Date.now()}` and by the workflow executor for the
step counters): the decimal digit string of `n`. -/
def jsNumToString (n : Nat) : String :=
  String.mk (toDecimalCore (n + 1) n [])

/-- Decode a decimal digit list given least significant digit first;
inverse of `toDecimalCore` used to prove id uniqueness. -/
def decodeRevDigits : List Char → Nat
  | [] => 0
  | c :: cs => (c.toNat - '0'.toNat) + 10 * decodeRevDigits cs

/-- The `'success' | 'failed'` status stored in a ledger entry. -/
inductive CmdStatus
  | success
  | failed
deriving DecidableEq, Repr

/-- `LedgerEntry` from `src/types.ts`.  The JavaScript `Date` values
(`Date.now()` milliseconds) are modelled as `Nat`. -/
structure LedgerEntry where
  id : String
  timestamp : Nat
  description : String
  command : String
  status : CmdStatus
  reversalCommand : Option String
deriving DecidableEq, Repr

/-- The caller-supplied part of a ledger entry:
`Omit<LedgerEntry, 'id' | 'timestamp'>` in `src/ledger.ts`. -/
structure LedgerInput where
  description : String
  command : String
  status : CmdStatus
  reversalCommand : Option String
deriving DecidableEq, Repr

/-- `getLedger` from `src/ledger.ts`: read the whole persisted
sequence.  The ledger file is modelled as the list it holds (a
missing or unreadable file is the empty list). -/
def getLedger (file : List LedgerEntry) : List LedgerEntry :=
  file

/-- The entry built by `addLedgerEntry` at clock value `now`
(milliseconds): the supplied fields plus `id: ${Date.now()}` and the
creation timestamp. -/
def mkLedgerEntry (input : LedgerInput) (now : Nat) : LedgerEntry :=
  { id := jsNumToString now
    timestamp := now
    description := input.description
    command := input.command
    status := input.status
    reversalCommand := input.reversalCommand }

/-- `addLedgerEntry` from `src/ledger.ts`: read the ledger, push the
new entry, write the whole sequence back.  Returns the new persisted
file contents. -/
def addLedgerEntry (input : LedgerInput) (now : Nat) (file : List LedgerEntry) : List LedgerEntry :=
  getLedger file ++ [mkLedgerEntry input now]

/-- `getLastCommand` from `src/ledger.ts`: the most recently appended
entry, if any. -/
def getLastCommand (file : List LedgerEntry) : Option LedgerEntry :=
  (getLedger file).getLast?

/-- Append a sequence of entries, each with its own clock value, in
order. -/
def addAllLedgerEntries : List (LedgerInput × Nat) → List LedgerEntry → List LedgerEntry
  | [], file => file
  | (input, now) :: rest, file => addAllLedgerEntries rest (addLedgerEntry input now file)

/-- `WorkflowStep.status` values from `src/types.ts`. -/
inductive StepStatus
  | pending
  | running
  | success
  | failed
  | skipped
deriving DecidableEq, Repr

/-- `WorkflowStep` from `src/types.ts`. -/
structure WorkflowStep where
  command : String
  explanation : String
  status : StepStatus
  output : Option String := none
  error : Option String := none
deriving DecidableEq, Repr

/-- `Workflow` from `src/types.ts`.  `parseWorkflowOutput` in
`src/copilot.ts` always constructs it with `stopOnFailure := true`
and every step `pending`. -/
structure Workflow where
  steps : List WorkflowStep
  description : String
  stopOnFailure : Bool
deriving DecidableEq, Repr

/-- `ConflictInfo` from `src/types.ts`. -/
structure ConflictInfo where
  hasConflicts : Bool
  conflictFiles : List String
deriving DecidableEq, Repr

/-- The external collaborators consumed by `handleWorkflow` in
`src/cli.ts`: the whole-plan confirmation prompt, the command runner
(`execAsync`, indexed by step position so the live repository state
may differ between steps; success carries the `(stdout, stderr)`
pair, failure the error message), the conflict query made after step
`i`, and the abort-merge prompt answer at step `i`. -/
structure WorkflowEnv where
  confirm : Bool
  run : Nat → String → Except String (String × String)
  checkConflicts : Nat → ConflictInfo
  askAbort : Nat → Bool

/-- The observable outcome of a workflow run: the final steps, the
sequence of `addLedgerEntry` calls made, how often `abortMerge` was
invoked, which step indices had their command executed, and the
`completedSteps` counter of the source. -/
structure WorkflowResult where
  steps : List WorkflowStep
  ledgerCalls : List LedgerInput
  abortMergeCalls : Nat
  ran : List Nat
  completedSteps : Nat
deriving DecidableEq, Repr

/-- `/^git\s+(merge|pull|rebase)/.test(step.command)` from
`src/cli.ts`. -/
def isMergeFamily (cmd : String) : Bool :=
  testPattern ["git", "merge"] cmd.data ||
  testPattern ["git", "pull"] cmd.data ||
  testPattern ["git", "rebase"] cmd.data

/-- `[stdout, stderr].filter(Boolean).join('\n').trim()` from the
success path of `handleWorkflow`. -/
def combineOutput (stdout stderr : String) : String :=
  jsTrim (String.intercalate "\n" ([stdout, stderr].filter (fun s => !(s == ""))))

/-- The ledger description string
``[workflow i+1/total] query`` built for each step. -/
def stepDescription (query : String) (i total : Nat) : String :=
  "[workflow " ++ jsNumToString (i + 1) ++ "/" ++ jsNumToString total ++ "] " ++ query

/-- The `addLedgerEntry` argument on the success path of a step. -/
def successLedgerInput (query : String) (i total : Nat) (cmd : String) : LedgerInput :=
  { description := stepDescription query i total
    command := cmd
    status := CmdStatus.success
    reversalCommand := if isReversible cmd then some "git reflog" else none }

/-- The `addLedgerEntry` argument on the failure path of a step. -/
def failedLedgerInput (query : String) (i total : Nat) (cmd : String) : LedgerInput :=
  { description := stepDescription query i total
    command := cmd
    status := CmdStatus.failed
    reversalCommand := none }

/-- Mark a step `skipped`, as the two skip loops of `handleWorkflow`
do to every remaining step. -/
def markSkipped (st : WorkflowStep) : WorkflowStep :=
  { st with status := StepStatus.skipped }

/-- The step-execution loop of `handleWorkflow` (`src/cli.ts`,
lines 143-227), from step index `i` onwards.  On success the step
output is stored and, for a merge/pull/rebase command with conflicts
reported, the operator is asked to abort; either answer marks all
remaining steps skipped and stops without a ledger entry for the
conflicted step.  Otherwise the step is logged and the loop
continues.  On failure the step error is stored, a failed entry is
logged, conflicts may trigger an abort-merge call, and with
`stopOnFailure` the remaining steps are marked skipped. -/
def runSteps (env : WorkflowEnv) (query : String) (total : Nat) (stopOnFailure : Bool) :
    Nat → List WorkflowStep → WorkflowResult
  | _, [] =>
    { steps := [], ledgerCalls := [], abortMergeCalls := 0, ran := [], completedSteps := 0 }
  | i, step :: rest =>
    match env.run i step.command with
    | Except.ok out =>
      let step' := { step with status := StepStatus.success, output := some (combineOutput out.1 out.2) }
      if isMergeFamily step.command && (env.checkConflicts i).hasConflicts then
        if env.askAbort i then
          { steps := step' :: rest.map markSkipped, ledgerCalls := [],
            abortMergeCalls := 1, ran := [i], completedSteps := 1 }
        else
          { steps := step' :: rest.map markSkipped, ledgerCalls := [],
            abortMergeCalls := 0, ran := [i], completedSteps := 1 }
      else
        let r := runSteps env query total stopOnFailure (i + 1) rest
        { steps := step' :: r.steps,
          ledgerCalls := successLedgerInput query i total step.command :: r.ledgerCalls,
          abortMergeCalls := r.abortMergeCalls,
          ran := i :: r.ran,
          completedSteps := 1 + r.completedSteps }
    | Except.error e =>
      let step' := { step with status := StepStatus.failed, error := some e }
      let aborts :=
        if isMergeFamily step.command && (env.checkConflicts i).hasConflicts && env.askAbort i
        then 1 else 0
      if stopOnFailure then
        { steps := step' :: rest.map markSkipped,
          ledgerCalls := [failedLedgerInput query i total step.command],
          abortMergeCalls := aborts, ran := [i], completedSteps := 0 }
      else
        let r := runSteps env query total stopOnFailure (i + 1) rest
        { steps := step' :: r.steps,
          ledgerCalls := failedLedgerInput query i total step.command :: r.ledgerCalls,
          abortMergeCalls := aborts + r.abortMergeCalls,
          ran := i :: r.ran,
          completedSteps := r.completedSteps }

/-- `handleWorkflow` from `src/cli.ts`, from the whole-plan
confirmation onwards: declining leaves every step untouched and
performs no calls; confirming runs the steps sequentially. -/
def handleWorkflow (env : WorkflowEnv) (wf : Workflow) (query : String) : WorkflowResult :=
  if env.confirm then
    runSteps env query wf.steps.length wf.stopOnFailure 0 wf.steps
  else
    { steps := wf.steps, ledgerCalls := [], abortMergeCalls := 0, ran := [], completedSteps := 0 }

/-- A pending step, as `parseWorkflowOutput` creates them. -/
def mkPendingStep (cmd expl : String) : WorkflowStep :=
  { command := cmd, explanation := expl, status := StepStatus.pending }

/-- First step of the three-step failure scenario. -/
def stepFetch : WorkflowStep := mkPendingStep "git fetch origin" "Fetch latest changes from remote"

/-- Second step of the three-step failure scenario. -/
def stepCommit : WorkflowStep := mkPendingStep "git commit -m \"wip\"" "Commit staged changes"

/-- Third step of the three-step failure scenario. -/
def stepPush : WorkflowStep := mkPendingStep "git push" "Push commits to remote"

/-- Three-step workflow whose second step will fail. -/
def wfThree : Workflow :=
  { steps := [stepFetch, stepCommit, stepPush]
    description := "commit and push"
    stopOnFailure := true }

/-- Environment for the three-step scenario: the operator confirms,
step 1 succeeds, step 2 fails, step 3 would succeed, no conflicts are
ever reported. -/
def envThree : WorkflowEnv :=
  { confirm := true
    run := fun i _ => if i = 1 then Except.error "nothing to commit" else Except.ok ("ok", "")
    checkConflicts := fun _ => { hasConflicts := false, conflictFiles := [] }
    askAbort := fun _ => false }

/-- A merge step that will report conflicts. -/
def stepMerge : WorkflowStep := mkPendingStep "git merge feature" "Merge branches together"

/-- One-step workflow whose merge succeeds but leaves conflicts. -/
def wfMergeOnly : Workflow :=
  { steps := [stepMerge], description := "merge feature", stopOnFailure := true }

/-- Two-step workflow: a conflicting merge followed by a push. -/
def wfMergePush : Workflow :=
  { steps := [stepMerge, stepPush], description := "merge and push", stopOnFailure := true }

/-- Environment where the merge command succeeds, conflicts are
reported, and the operator declines to abort. -/
def envConflictKeep : WorkflowEnv :=
  { confirm := true
    run := fun _ _ => Except.ok ("Auto-merging file.txt", "")
    checkConflicts := fun _ => { hasConflicts := true, conflictFiles := ["file.txt"] }
    askAbort := fun _ => false }

/-- Environment where the merge command succeeds, conflicts are
reported, and the operator chooses to abort the merge. -/
def envConflictAbort : WorkflowEnv :=
  { confirm := true
    run := fun _ _ => Except.ok ("Auto-merging file.txt", "")
    checkConflicts := fun _ => { hasConflicts := true, conflictFiles := ["file.txt"] }
    askAbort := fun _ => true }

/-- Environment whose command runner always fails. -/
def envAlwaysFail : WorkflowEnv :=
  { confirm := true
    run := fun _ _ => Except.error "fatal: boom"
    checkConflicts := fun _ => { hasConflicts := false, conflictFiles := [] }
    askAbort := fun _ => false }

/-- Environment where the operator declines the whole-plan
confirmation. -/
def envDecline : WorkflowEnv :=
  { confirm := false
    run := fun _ _ => Except.ok ("ok", "")
    checkConflicts := fun _ => { hasConflicts := false, conflictFiles := [] }
    askAbort := fun _ => false }

/-- First ledger input of the same-millisecond collision scenario. -/
def inputFetch : LedgerInput :=
  { description := "fetch it", command := "git fetch origin",
    status := CmdStatus.success, reversalCommand := some "git reflog" }

/-- Second ledger input of the same-millisecond collision scenario. -/
def inputStatus : LedgerInput :=
  { description := "show status", command := "git status",
    status := CmdStatus.success, reversalCommand := some "git reflog" }


/-! ## Helper lemmas -/

/-- `toDecimalCore` threads its accumulator: emitting into `acc` is
emitting into `[]` and appending. -/
theorem toDecimalCore_append (fuel : Nat) : ∀ (n : Nat) (acc : List Char),
    toDecimalCore fuel n acc = toDecimalCore fuel n [] ++ acc := by
  induction fuel with
  | zero => intro n acc; simp [toDecimalCore]
  | succ fuel ih =>
    intro n acc
    simp only [toDecimalCore]
    by_cases h : n / 10 = 0
    · simp [h]
    · simp only [h, if_false]
      rw [ih (n / 10) [Nat.digitChar (n % 10)], ih (n / 10) (Nat.digitChar (n % 10) :: acc)]
      simp

/-- Decimal digit characters decode back to their digit. -/
theorem digitChar_val : ∀ d : Nat, d < 10 → (Nat.digitChar d).toNat - '0'.toNat = d := by
  decide

/-- Decoding the emitted digit string recovers the number. -/
theorem decode_toDecimalCore (fuel : Nat) : ∀ n, n < fuel →
    decodeRevDigits ((toDecimalCore fuel n []).reverse) = n := by
  induction fuel with
  | zero => intro n h; exact absurd h (Nat.not_lt_zero n)
  | succ fuel ih =>
    intro n h
    simp only [toDecimalCore]
    by_cases h0 : n / 10 = 0
    · have hn : n < 10 := by omega
      rw [if_pos h0]
      simp only [List.reverse_cons, List.reverse_nil, List.nil_append, decodeRevDigits]
      rw [Nat.mod_eq_of_lt hn, digitChar_val n hn]
      omega
    · rw [if_neg h0, toDecimalCore_append]
      have hdiv : n / 10 < fuel := by omega
      simp only [List.reverse_append, List.reverse_cons, List.reverse_nil, List.nil_append,
        List.singleton_append, decodeRevDigits]
      rw [digitChar_val (n % 10) (by omega), ih (n / 10) hdiv]
      omega

/-- The JavaScript decimal rendering of a nonnegative integer is
injective. -/
theorem jsNumToString_inj (m n : Nat) (h : jsNumToString m = jsNumToString n) : m = n := by
  have h' : toDecimalCore (m + 1) m [] = toDecimalCore (n + 1) n [] := by
    simpa [jsNumToString] using congrArg String.data h
  have hm := decode_toDecimalCore (m + 1) m (Nat.lt_succ_self m)
  have hn := decode_toDecimalCore (n + 1) n (Nat.lt_succ_self n)
  rw [← hm, ← hn, h']

/-- The early-return scan of `getReversalCommand` computes the first
match of the table. -/
theorem reversalLoop_eq_find (c : String) (table : List (String × String)) :
    reversalLoop c table = (table.find? (fun p => strIncludes c p.1)).map (fun p => p.2) := by
  induction table with
  | nil => rfl
  | cons hd tl ih =>
    obtain ⟨o, r⟩ := hd
    by_cases h : strIncludes c o = true
    · simp [reversalLoop, List.find?_cons_of_pos, h]
    · rw [reversalLoop, if_neg (by simpa using h), ih,
        List.find?_cons_of_neg _ (by simpa using h)]

/-! ## Claim theorems -/

/-- Claim C1: every command whose trimmed text matches one of the
dangerous patterns is classified `Dangerous` with `reversible = false`,
and in particular is never classified `Warning` — the dangerous rules
are checked before the warning rules. -/
theorem analyzeCommand_dangerous_priority (c : String)
    (h : DANGEROUS_COMMANDS.any (fun p => testPattern p (jsTrim c).data) = true) :
    (analyzeCommand c).riskLevel = RiskLevel.Dangerous ∧
    (analyzeCommand c).reversible = false ∧
    (analyzeCommand c).riskLevel ≠ RiskLevel.Warning := by
  unfold analyzeCommand
  simp [h]

/-- Witness for C1 at a concrete force push, which matches both the
dangerous `^git\s+push\s+--force` pattern and the warning
`^git\s+push` pattern. -/
theorem analyzeCommand_dangerous_priority_witness :
    (DANGEROUS_COMMANDS.any (fun p => testPattern p (jsTrim "git push --force origin main").data) = true) ∧
    ((analyzeCommand "git push --force origin main").riskLevel = RiskLevel.Dangerous ∧
     (analyzeCommand "git push --force origin main").reversible = false ∧
     (analyzeCommand "git push --force origin main").riskLevel ≠ RiskLevel.Warning) :=
  ⟨by decide, analyzeCommand_dangerous_priority "git push --force origin main" (by decide)⟩

/-- Claim C5: `isReversible` agrees with the classifier — a command is
reversible exactly when its risk level is not `Dangerous`. -/
theorem isReversible_iff_not_dangerous (c : String) :
    isReversible c = true ↔ (analyzeCommand c).riskLevel ≠ RiskLevel.Dangerous := by
  simp only [isReversible, analyzeCommand]
  cases h : DANGEROUS_COMMANDS.any (fun p => testPattern p (jsTrim c).data) with
  | false =>
    rw [if_neg Bool.false_ne_true]
    simp only [Bool.not_false]
    constructor
    · intro _
      split
      · simp
      · split <;> simp
    · intro _
      trivial
  | true => simp [h]

/-- Claim C8: a command matching no dangerous pattern is classified
`Warning` with `reversible = true` when its trimmed text starts with
`git push` or `git rebase`, and otherwise `Safe` with
`reversible = true` and no affected items. -/
theorem analyzeCommand_warning_and_safe (c : String)
    (h : DANGEROUS_COMMANDS.any (fun p => testPattern p (jsTrim c).data) = false) :
    ((testPattern ["git", "push"] (jsTrim c).data = true ∨
      testPattern ["git", "rebase"] (jsTrim c).data = true) →
      (analyzeCommand c).riskLevel = RiskLevel.Warning ∧
      (analyzeCommand c).reversible = true) ∧
    ((testPattern ["git", "push"] (jsTrim c).data = false ∧
      testPattern ["git", "rebase"] (jsTrim c).data = false) →
      (analyzeCommand c).riskLevel = RiskLevel.Safe ∧
      (analyzeCommand c).reversible = true ∧
      (analyzeCommand c).affectedItems = []) := by
  unfold analyzeCommand
  simp only [h, Bool.false_eq_true, if_false]
  constructor
  · rintro (hp | hr)
    · simp [hp]
    · cases hp : testPattern ["git", "push"] (jsTrim c).data <;> simp [hp, hr]
  · rintro ⟨hp, hr⟩
    simp [hp, hr]

/-- Witness for C8 at a concrete plain push (warning tier). -/
theorem analyzeCommand_warning_and_safe_witness :
    (DANGEROUS_COMMANDS.any (fun p => testPattern p (jsTrim "git push origin main").data) = false) ∧
    (testPattern ["git", "push"] (jsTrim "git push origin main").data = true ∨
     testPattern ["git", "rebase"] (jsTrim "git push origin main").data = true) ∧
    ((analyzeCommand "git push origin main").riskLevel = RiskLevel.Warning ∧
     (analyzeCommand "git push origin main").reversible = true) :=
  ⟨by decide, Or.inl (by decide),
   (analyzeCommand_warning_and_safe "git push origin main" (by decide)).1 (Or.inl (by decide))⟩

/-- Claim C9, counterexample to the quoted example: the resolver is a
pure function of the command it is given, and no trigger of the
reversal table is a substring of `git commit -m x`, so the resolver
returns none for it — not `git commit` — whatever was classified
before. -/
theorem getReversalCommand_commit_example_false :
    getReversalCommand "git commit -m x" = none ∧
    getReversalCommand "git commit -m x" ≠ some "git commit" := by
  decide

/-- Claim C9 as amended: `getReversalCommand` returns the reversal
template of the first table entry whose trigger is contained in the
command, none when no trigger is contained; the spec's example holds
for the command that was actually executed: resolving
`git reset --soft HEAD~2` yields `git commit`. -/
theorem getReversalCommand_first_substring_match :
    (∀ c : String, getReversalCommand c = resolveReversalSpec c) ∧
    getReversalCommand "git reset --soft HEAD~2" = some "git commit" ∧
    (∀ c : String, (∀ p ∈ REVERSIBLE_OPERATIONS, strIncludes c p.1 = false) →
      getReversalCommand c = none) := by
  refine ⟨fun c => reversalLoop_eq_find c REVERSIBLE_OPERATIONS, by decide, fun c hnone => ?_⟩
  rw [getReversalCommand, reversalLoop_eq_find]
  rw [List.find?_eq_none.mpr (fun p hp => by simp [hnone p hp])]
  rfl

/-- Witness for the none case of C9 on a command containing no
trigger. -/
theorem getReversalCommand_first_substring_match_witness :
    (∀ p ∈ REVERSIBLE_OPERATIONS, strIncludes "git log" p.1 = false) ∧
    getReversalCommand "git log" = none :=
  ⟨by decide, getReversalCommand_first_substring_match.2.2 "git log" (by decide)⟩

/-- Claim C6: appending any sequence of entries to any prior ledger
state and reading it all back yields the prior entries followed by
exactly the appended entries in append order; each new entry carries
the supplied description, command, status and reversal command plus
the generated id and timestamp, and no existing entry is mutated or
removed. -/
theorem ledger_append_roundtrip (inputs : List (LedgerInput × Nat)) (file : List LedgerEntry) :
    getLedger (addAllLedgerEntries inputs file) =
      getLedger file ++ inputs.map (fun p => mkLedgerEntry p.1 p.2) ∧
    ∀ p : LedgerInput × Nat,
      (mkLedgerEntry p.1 p.2).description = p.1.description ∧
      (mkLedgerEntry p.1 p.2).command = p.1.command ∧
      (mkLedgerEntry p.1 p.2).status = p.1.status ∧
      (mkLedgerEntry p.1 p.2).reversalCommand = p.1.reversalCommand := by
  constructor
  · induction inputs generalizing file with
    | nil => simp [addAllLedgerEntries, getLedger]
    | cons hd tl ih =>
      obtain ⟨input, now⟩ := hd
      have ih' := ih (addLedgerEntry input now file)
      simp only [addAllLedgerEntries]
      rw [ih']
      simp [addLedgerEntry, getLedger]
  · intro p
    exact ⟨rfl, rfl, rfl, rfl⟩

/-- Claim C10, counterexample: two entries appended in the same
millisecond are distinct entries of the persisted ledger but share
the same id, because the id is just `${Date.now()}`. -/
theorem ledger_same_millisecond_id_collision :
    getLedger (addAllLedgerEntries [(inputFetch, 1000), (inputStatus, 1000)] []) =
      [mkLedgerEntry inputFetch 1000, mkLedgerEntry inputStatus 1000] ∧
    mkLedgerEntry inputFetch 1000 ≠ mkLedgerEntry inputStatus 1000 ∧
    (mkLedgerEntry inputFetch 1000).id = (mkLedgerEntry inputStatus 1000).id := by
  decide

/-- Claim C10 as amended: entry ids are the decimal rendering of the
creation timestamp, so any two entries appended at distinct clock
values have distinct ids; only same-millisecond appends collide. -/
theorem ledger_ids_distinct_for_distinct_times (i1 i2 : LedgerInput) (t1 t2 : Nat)
    (h : t1 ≠ t2) : (mkLedgerEntry i1 t1).id ≠ (mkLedgerEntry i2 t2).id := by
  intro hid
  exact h (jsNumToString_inj t1 t2 hid)

/-- Witness for the amended C10 at two adjacent milliseconds. -/
theorem ledger_ids_distinct_for_distinct_times_witness :
    (1000 : Nat) ≠ 1001 ∧
    (mkLedgerEntry inputFetch 1000).id ≠ (mkLedgerEntry inputStatus 1001).id :=
  ⟨by decide, ledger_ids_distinct_for_distinct_times inputFetch inputStatus 1000 1001 (by decide)⟩

/-- Claim C2: in a three-step workflow where step 1 succeeds, step 2's
external command fails and step 3 would succeed (and the conflict
collaborator reports no conflicts), the run ends with statuses
Success, Failed, Skipped, step 3 is never executed, and exactly two
ledger entries are appended: a Success entry for step 1 and a Failed
entry for step 2, none for the skipped step. -/
theorem workflow_halts_on_step_failure (env : WorkflowEnv) (wf : Workflow) (query : String)
    (s1 s2 s3 : WorkflowStep) (o1 o3 : String × String) (e : String)
    (hsteps : wf.steps = [s1, s2, s3])
    (hstop : wf.stopOnFailure = true)
    (hconfirm : env.confirm = true)
    (h1 : env.run 0 s1.command = Except.ok o1)
    (h2 : env.run 1 s2.command = Except.error e)
    (_h3 : env.run 2 s3.command = Except.ok o3)
    (hnc : ∀ j, (env.checkConflicts j).hasConflicts = false) :
    ((handleWorkflow env wf query).steps.map WorkflowStep.status =
      [StepStatus.success, StepStatus.failed, StepStatus.skipped]) ∧
    ((handleWorkflow env wf query).ledgerCalls.map (fun c => (c.command, c.status)) =
      [(s1.command, CmdStatus.success), (s2.command, CmdStatus.failed)]) ∧
    (handleWorkflow env wf query).ledgerCalls.length = 2 ∧
    (handleWorkflow env wf query).ran = [0, 1] := by
  simp only [handleWorkflow, hconfirm, if_true, hsteps, hstop]
  simp [runSteps, h1, h2, hnc, markSkipped, successLedgerInput, failedLedgerInput]

/-- Witness for C2 on the concrete three-step fixture. -/
theorem workflow_halts_on_step_failure_witness :
    (wfThree.steps = [stepFetch, stepCommit, stepPush] ∧
     wfThree.stopOnFailure = true ∧
     envThree.confirm = true ∧
     envThree.run 0 stepFetch.command = Except.ok ("ok", "") ∧
     envThree.run 1 stepCommit.command = Except.error "nothing to commit" ∧
     envThree.run 2 stepPush.command = Except.ok ("ok", "") ∧
     (∀ j, (envThree.checkConflicts j).hasConflicts = false)) ∧
    (((handleWorkflow envThree wfThree "commit and push").steps.map WorkflowStep.status =
       [StepStatus.success, StepStatus.failed, StepStatus.skipped]) ∧
     ((handleWorkflow envThree wfThree "commit and push").ledgerCalls.map (fun c => (c.command, c.status)) =
       [(stepFetch.command, CmdStatus.success), (stepCommit.command, CmdStatus.failed)]) ∧
     (handleWorkflow envThree wfThree "commit and push").ledgerCalls.length = 2 ∧
     (handleWorkflow envThree wfThree "commit and push").ran = [0, 1]) :=
  ⟨⟨rfl, rfl, rfl, rfl, rfl, rfl, fun _ => rfl⟩,
   workflow_halts_on_step_failure envThree wfThree "commit and push"
     stepFetch stepCommit stepPush ("ok", "") ("ok", "") "nothing to commit"
     rfl rfl rfl rfl rfl rfl (fun _ => rfl)⟩

/-- Claim C3, counterexample: a workflow step whose merge command is
executed successfully but leaves conflicts is not logged — the run
stops (operator declines the abort) before `addLedgerEntry` is
reached, so an executed command produced no ledger entry. -/
theorem conflicted_merge_step_not_logged :
    (handleWorkflow envConflictKeep wfMergeOnly "merge feature").ran = [0] ∧
    ((handleWorkflow envConflictKeep wfMergeOnly "merge feature").steps.map WorkflowStep.status =
      [StepStatus.success]) ∧
    (handleWorkflow envConflictKeep wfMergeOnly "merge feature").ledgerCalls = [] := by
  decide

/-- Claim C3 as amended: every executed workflow step is logged to
the ledger — a Failed entry on failure, a Success entry (whose
reversal command is the `git reflog` placeholder exactly when the
command is reversible) on success — except a successful
merge/pull/rebase step after which conflicts are reported: there the
run stops before the ledger append, and that executed step produces
no entry. -/
theorem ledger_entry_per_executed_step (env : WorkflowEnv) (query : String)
    (total i : Nat) (stopOnFailure : Bool) (s : WorkflowStep) (rest : List WorkflowStep) :
    (∀ e, env.run i s.command = Except.error e →
      ∃ tl, (runSteps env query total stopOnFailure i (s :: rest)).ledgerCalls =
        failedLedgerInput query i total s.command :: tl) ∧
    (∀ o, env.run i s.command = Except.ok o →
      (isMergeFamily s.command && (env.checkConflicts i).hasConflicts) = false →
      ∃ tl, (runSteps env query total stopOnFailure i (s :: rest)).ledgerCalls =
        successLedgerInput query i total s.command :: tl) ∧
    (∀ o, env.run i s.command = Except.ok o →
      (isMergeFamily s.command && (env.checkConflicts i).hasConflicts) = true →
      (runSteps env query total stopOnFailure i (s :: rest)).ledgerCalls = []) ∧
    (successLedgerInput query i total s.command).reversalCommand =
      (if isReversible s.command then some "git reflog" else none) := by
  refine ⟨fun e he => ?_, fun o ho hnc => ?_, fun o ho hc => ?_, rfl⟩
  · cases stopOnFailure <;> simp [runSteps, he]
  · simp [runSteps, ho, hnc]
  · cases ha : env.askAbort i <;> simp [runSteps, ho, hc, ha]

/-- Witness for the amended C3 on a concrete failing step. -/
theorem ledger_entry_per_executed_step_witness :
    (envAlwaysFail.run 0 stepPush.command = Except.error "fatal: boom") ∧
    (∃ tl, (runSteps envAlwaysFail "push it" 1 true 0 [stepPush]).ledgerCalls =
      failedLedgerInput "push it" 0 1 stepPush.command :: tl) :=
  ⟨rfl,
   (ledger_entry_per_executed_step envAlwaysFail "push it" 1 0 true stepPush []).1
     "fatal: boom" rfl⟩

/-- Claim C4: from any point of the run, when a merge/pull/rebase
step reports conflicts, every later step ends skipped and is never
executed, whatever the step's own outcome; the abort-merge
collaborator is invoked exactly when the operator answers yes. -/
theorem conflict_skips_all_later_steps (env : WorkflowEnv) (query : String) (total i : Nat)
    (s : WorkflowStep) (rest : List WorkflowStep)
    (hm : isMergeFamily s.command = true)
    (hc : (env.checkConflicts i).hasConflicts = true) :
    (∀ st ∈ (runSteps env query total true i (s :: rest)).steps.tail,
      st.status = StepStatus.skipped) ∧
    (runSteps env query total true i (s :: rest)).ran = [i] ∧
    (env.askAbort i = true → (runSteps env query total true i (s :: rest)).abortMergeCalls = 1) ∧
    (env.askAbort i = false → (runSteps env query total true i (s :: rest)).abortMergeCalls = 0) := by
  cases hr : env.run i s.command with
  | ok out =>
    cases ha : env.askAbort i <;>
      simp [runSteps, hr, hm, hc, ha, markSkipped, List.mem_map]
  | error e =>
    cases ha : env.askAbort i <;>
      simp [runSteps, hr, hm, hc, ha, markSkipped, List.mem_map]

/-- Witness for C4 on the concrete conflicted merge with abort. -/
theorem conflict_skips_all_later_steps_witness :
    (isMergeFamily stepMerge.command = true ∧
     (envConflictAbort.checkConflicts 0).hasConflicts = true) ∧
    ((∀ st ∈ (runSteps envConflictAbort "merge and push" 2 true 0 [stepMerge, stepPush]).steps.tail,
        st.status = StepStatus.skipped) ∧
     (runSteps envConflictAbort "merge and push" 2 true 0 [stepMerge, stepPush]).ran = [0] ∧
     (envConflictAbort.askAbort 0 = true →
       (runSteps envConflictAbort "merge and push" 2 true 0 [stepMerge, stepPush]).abortMergeCalls = 1) ∧
     (envConflictAbort.askAbort 0 = false →
       (runSteps envConflictAbort "merge and push" 2 true 0 [stepMerge, stepPush]).abortMergeCalls = 0)) :=
  ⟨⟨by decide, rfl⟩,
   conflict_skips_all_later_steps envConflictAbort "merge and push" 2 0 stepMerge [stepPush]
     (by decide) rfl⟩

/-- Claim C7: declining the whole-plan confirmation terminates the
run with every step still pending, nothing executed and zero ledger
entries appended. -/
theorem decline_confirmation_leaves_pending (env : WorkflowEnv) (wf : Workflow) (query : String)
    (hconfirm : env.confirm = false)
    (hpending : ∀ st ∈ wf.steps, st.status = StepStatus.pending) :
    (handleWorkflow env wf query).steps = wf.steps ∧
    (∀ st ∈ (handleWorkflow env wf query).steps, st.status = StepStatus.pending) ∧
    (handleWorkflow env wf query).ledgerCalls = [] ∧
    (handleWorkflow env wf query).ran = [] := by
  simp only [handleWorkflow, hconfirm, Bool.false_eq_true, if_false]
  refine ⟨trivial, ?_, trivial, trivial⟩
  exact hpending

/-- Witness for C7 on the declined three-step fixture. -/
theorem decline_confirmation_leaves_pending_witness :
    (envDecline.confirm = false ∧
     (∀ st ∈ wfThree.steps, st.status = StepStatus.pending)) ∧
    ((handleWorkflow envDecline wfThree "commit and push").steps = wfThree.steps ∧
     (∀ st ∈ (handleWorkflow envDecline wfThree "commit and push").steps,
       st.status = StepStatus.pending) ∧
     (handleWorkflow envDecline wfThree "commit and push").ledgerCalls = [] ∧
     (handleWorkflow envDecline wfThree "commit and push").ran = []) :=
  ⟨⟨rfl, by decide⟩,
   decline_confirmation_leaves_pending envDecline wfThree "commit and push" rfl (by decide)⟩
